import Mathlib

set_option maxHeartbeats 1000000

/-!
Shallow embedding of `src/componentContainer.js` (the litescene.js
`ComponentContainer` mixin).

Modelling choices, kept as close to the JavaScript as a shallow
embedding allows:

* A JS object heap is modelled explicitly: components live at `Nat`
  addresses in `State.heap`, hosts are identified by `Nat` and their
  lazily created `_components` array is `State.hostComps hid`, with
  `none` standing for the property being still undefined.
* A component's optional capabilities (`serialize`, `onAddedToNode`,
  `onRemovedFromNode`) are Booleans plus, for `serialize`, the data that
  the method returns.  `uid` is `Option Nat`: `none` models the absence
  of an own `"uid"` property (`hasOwnProperty` is `Option.isSome`).
* Lifecycle hook invocations and `LEvent.unbindAll` calls are recorded
  in an append-only event log, so that "the hook was invoked" is a
  statement about the log.
* A JS `throw` does not roll back earlier mutations, so fallible
  operations return the mutated state together with an outcome flag.
* `LS.generateUId` is a counter (`uidCounter`); `new` allocations in
  `configureComponents` take fresh heap addresses from `compCounter`.
-/

/-- Plain data object returned by a component's `serialize` method: an
optional `uid` field plus an opaque payload standing for the rest of the
serialized properties. -/
structure SerData where
  uid : Option Nat
  payload : Nat
  deriving DecidableEq

/-- Component instance: its class name (`getObjectClassName`), the host
back-reference `_root`, the lazily assigned `uid`, its optional
capabilities and the data its `serialize` method returns. -/
structure Component where
  className : String
  root : Option Nat
  uid : Option Nat
  hasSerialize : Bool
  serData : SerData
  hasOnAdded : Bool
  hasOnRemoved : Bool
  deriving DecidableEq

/-- Kind of an observable external call made by the container. -/
inductive EvKind where
  | onAdded
  | onRemoved
  | unbind
  deriving DecidableEq

/-- One recorded external call: a lifecycle hook invocation or an
`LEvent.unbindAll(host, component)` call. -/
structure Event where
  kind : EvKind
  host : Nat
  comp : Nat
  deriving DecidableEq

/-- Global mutable state: all hosts' `_components` properties, the
component heap, each host's built-in `transform` (last configured data),
the external class registry, the uid generator counter, the allocation
counter for `new`, and the event log. -/
structure State where
  hostComps : Nat → Option (List Nat)
  heap : Nat → Component
  transform : Nat → Option SerData
  registered : String → Bool
  uidCounter : Nat
  compCounter : Nat
  events : List Event

/-- Serialization target object `o`; `none` models the `components`
property being absent. -/
structure SerTarget where
  components : Option (List (String × SerData))
  deriving DecidableEq

def writeHeap (s : State) (cid : Nat) (c : Component) : State :=
  { s with heap := fun k => if k = cid then c else s.heap k }

def writeComps (s : State) (hid : Nat) (l : List Nat) : State :=
  { s with hostComps := fun h => if h = hid then some l else s.hostComps h }

def pushEvent (s : State) (e : Event) : State :=
  { s with events := s.events ++ [e] }

/-- Outcome of `addComponent`: the null-argument error path, the
`throw("inserting the same component twice")` path, or the normal return
of the component itself. -/
inductive AddOutcome where
  | nullError
  | threwDuplicate
  | ok (cid : Nat)
  deriving DecidableEq

structure AddResult where
  state : State
  outcome : AddOutcome

/-- Embedding of `ComponentContainer.prototype.addComponent`.  The
argument is `none` for a null component.  Mutation order follows the
source: `_root` is set and `onAddedToNode` fired before the duplicate
check, the duplicate `throw` leaves those mutations in place, and the
`uid` is assigned (only when absent) after the push. -/
def addComponent (s : State) (hid : Nat) (component : Option Nat) : AddResult :=
  match component with
  | none => { state := s, outcome := .nullError }
  | some cid =>
    let s1 := writeHeap s cid { s.heap cid with root := some hid }
    let s2 := if (s.heap cid).hasOnAdded then pushEvent s1 ⟨.onAdded, hid, cid⟩ else s1
    let s3 :=
      match s2.hostComps hid with
      | none => writeComps s2 hid []
      | some _ => s2
    let l := (s3.hostComps hid).getD []
    if cid ∈ l then { state := s3, outcome := .threwDuplicate }
    else
      let s4 := writeComps s3 hid (l ++ [cid])
      let s5 :=
        if (s4.heap cid).uid.isSome then s4
        else { writeHeap s4 cid { s4.heap cid with uid := some s4.uidCounter } with
                 uidCounter := s4.uidCounter + 1 }
      { state := s5, outcome := .ok cid }

/-- Result of a removal: `threw` is the TypeError raised when
`this._components` is still undefined and gets dereferenced;
`nullError` is the null-argument error path. -/
structure RemResult where
  state : State
  threw : Bool
  nullError : Bool

/-- Embedding of `ComponentContainer.prototype.removeComponent`.
`_root` is cleared, `onRemovedFromNode` fired and `LEvent.unbindAll`
called before the list is consulted; `indexOf` on an undefined
`_components` raises, and a missing component makes the splice a no-op. -/
def removeComponent (s : State) (hid : Nat) (component : Option Nat) : RemResult :=
  match component with
  | none => { state := s, threw := false, nullError := true }
  | some cid =>
    let s1 := writeHeap s cid { s.heap cid with root := none }
    let s2 := if (s.heap cid).hasOnRemoved then pushEvent s1 ⟨.onRemoved, hid, cid⟩ else s1
    let s3 := pushEvent s2 ⟨.unbind, hid, cid⟩
    match s3.hostComps hid with
    | none => { state := s3, threw := true, nullError := false }
    | some l =>
      match l.findIdx? (fun x => x == cid) with
      | none => { state := s3, threw := false, nullError := false }
      | some pos => { state := writeComps s3 hid (l.eraseIdx pos), threw := false, nullError := false }

/-- Fuel-indexed unfolding of the `while(this._components.length)` loop;
each iteration removes the first component, so the initial length is
enough fuel. -/
def removeAllLoop : Nat → State → Nat → State
  | 0, s, _ => s
  | fuel + 1, s, hid =>
    match s.hostComps hid with
    | some (c :: _) => removeAllLoop fuel (removeComponent s hid (some c)).state hid
    | _ => s

/-- Embedding of `ComponentContainer.prototype.removeAllComponents`;
reading `.length` of an undefined `_components` raises. -/
def removeAllComponents (s : State) (hid : Nat) : RemResult :=
  match s.hostComps hid with
  | none => { state := s, threw := true, nullError := false }
  | some l => { state := removeAllLoop l.length s hid, threw := false, nullError := false }

/-- Embedding of `getComponents`: returns the live collection. -/
def getComponents (s : State) (hid : Nat) : Option (List Nat) :=
  s.hostComps hid

/-- Embedding of `hasComponent` (string form: the scan compares
`constructor.name`, which the model stores as `className`). -/
def hasComponent (s : State) (hid : Nat) (cn : String) : Bool :=
  match s.hostComps hid with
  | none => false
  | some l => l.any (fun cid => (s.heap cid).className == cn)

/-- Embedding of `getComponent` (string form). -/
def getComponent (s : State) (hid : Nat) (cn : String) : Option Nat :=
  match s.hostComps hid with
  | none => none
  | some l => l.find? (fun cid => (s.heap cid).className == cn)

/-- Embedding of `getComponentByUId`: a component without a `uid`
property never equals a concrete uid, as in the JS `==` comparison with
`undefined`. -/
def getComponentByUId (s : State) (hid : Nat) (uid : Nat) : Option Nat :=
  match s.hostComps hid with
  | none => none
  | some l => l.find? (fun cid => (s.heap cid).uid == some uid)

/-- Embedding of `getIndexOfComponent`: `-1` when the collection is
undefined or the component is absent, otherwise its `indexOf`. -/
def getIndexOfComponent (s : State) (hid : Nat) (cid : Nat) : Int :=
  match s.hostComps hid with
  | none => -1
  | some l =>
    match l.findIdx? (fun x => x == cid) with
    | none => -1
    | some i => (i : Int)

/-- Embedding of `getComponentByIndex`: undefined collection or
out-of-range index (JS array indexing, which also yields `undefined` for
negative indices) gives `none`. -/
def getComponentByIndex (s : State) (hid : Nat) (index : Int) : Option Nat :=
  match s.hostComps hid with
  | none => none
  | some l => if index < 0 then none else l[index.toNat]?

/-- The per-component body of `serializeComponents`: call `serialize`,
then enforce uid storage (`if(comp.hasOwnProperty("uid") && !obj.uid)
obj.uid = comp.uid`). -/
def serializeOne (c : Component) : SerData :=
  let obj := c.serData
  if c.uid.isSome && obj.uid.isNone then { obj with uid := c.uid } else obj

/-- Embedding of `serializeComponents`: early return when
`_components` is undefined, otherwise `o.components` is assigned a fresh
array and one `[class_name, data]` pair is pushed per component exposing
`serialize`. -/
def serializeComponents (s : State) (hid : Nat) (o : SerTarget) : SerTarget :=
  match s.hostComps hid with
  | none => o
  | some l =>
    { o with components := some (l.filterMap (fun cid =>
        let c := s.heap cid
        if c.hasSerialize then some (c.className, serializeOne c) else none)) }

/-- Modelled from the spec: the external class registry `LS.Components`
(out of scope of this file).  A registered class name yields a
constructor that accepts the serialized data; per the header contract
("ctor: must accept an optional parameter with the serialized data",
"serialize: returns a serialized version packed in an object") the fresh
instance stores that data, exposes `serialize` returning it, and starts
with no host, no own `uid` property and no lifecycle hooks. -/
def mkComponentFromData (cn : String) (data : SerData) : Component :=
  { className := cn, root := none, uid := none, hasSerialize := true,
    serData := data, hasOnAdded := false, hasOnRemoved := false }

/-- The `for(var i in info.components)` loop of `configureComponents`,
carrying the running index `i`.  Index `0` with class name `"Transform"`
configures the host's built-in transform in place; an unregistered class
is reported and skipped; otherwise a fresh instance is constructed from
the data and attached via `addComponent`. -/
def configLoop : State → Nat → List (String × SerData) → Nat → State
  | s, _, [], _ => s
  | s, hid, (cn, data) :: rest, i =>
    if cn == "Transform" && i == 0 then
      configLoop { s with transform := fun h => if h = hid then some data else s.transform h }
        hid rest (i + 1)
    else if !(s.registered cn) then
      configLoop s hid rest (i + 1)
    else
      let cid := s.compCounter
      let s1 := { writeHeap s cid (mkComponentFromData cn data) with
                    compCounter := s.compCounter + 1 }
      configLoop (addComponent s1 hid (some cid)).state hid rest (i + 1)

/-- Embedding of `configureComponents`: nothing happens when
`info.components` is absent. -/
def configureComponents (s : State) (hid : Nat) (info : SerTarget) : State :=
  match info.components with
  | none => s
  | some entries => configLoop s hid entries 0

/-- One container operation, for stating properties over arbitrary
attach/detach/reconfigure histories. -/
inductive Op where
  | add (hid : Nat) (c : Option Nat)
  | remove (hid : Nat) (c : Option Nat)
  | removeAll (hid : Nat)
  | configure (hid : Nat) (info : SerTarget)

def step (s : State) (op : Op) : State :=
  match op with
  | .add h c => (addComponent s h c).state
  | .remove h c => (removeComponent s h c).state
  | .removeAll h => (removeAllComponents s h).state
  | .configure h i => configureComponents s h i

def run (s : State) (ops : List Op) : State :=
  ops.foldl step s

/-- Observable content of a host's collection: class name and serialized
data of each attached component, in attachment order. -/
def componentSnapshot (s : State) (hid : Nat) : List (String × SerData) :=
  ((s.hostComps hid).getD []).map (fun cid => ((s.heap cid).className, serializeOne (s.heap cid)))

/-! ## Projection lemmas for the primitive state writes -/

@[simp] theorem hostComps_pushEvent (s : State) (e : Event) :
    (pushEvent s e).hostComps = s.hostComps := rfl

@[simp] theorem heap_pushEvent (s : State) (e : Event) :
    (pushEvent s e).heap = s.heap := rfl

@[simp] theorem events_pushEvent (s : State) (e : Event) :
    (pushEvent s e).events = s.events ++ [e] := rfl

@[simp] theorem registered_pushEvent (s : State) (e : Event) :
    (pushEvent s e).registered = s.registered := rfl

@[simp] theorem compCounter_pushEvent (s : State) (e : Event) :
    (pushEvent s e).compCounter = s.compCounter := rfl

@[simp] theorem uidCounter_pushEvent (s : State) (e : Event) :
    (pushEvent s e).uidCounter = s.uidCounter := rfl

@[simp] theorem transform_pushEvent (s : State) (e : Event) :
    (pushEvent s e).transform = s.transform := rfl

@[simp] theorem hostComps_writeHeap (s : State) (cid : Nat) (c : Component) :
    (writeHeap s cid c).hostComps = s.hostComps := rfl

@[simp] theorem heap_writeHeap (s : State) (cid : Nat) (c : Component) (k : Nat) :
    (writeHeap s cid c).heap k = if k = cid then c else s.heap k := rfl

@[simp] theorem events_writeHeap (s : State) (cid : Nat) (c : Component) :
    (writeHeap s cid c).events = s.events := rfl

@[simp] theorem registered_writeHeap (s : State) (cid : Nat) (c : Component) :
    (writeHeap s cid c).registered = s.registered := rfl

@[simp] theorem compCounter_writeHeap (s : State) (cid : Nat) (c : Component) :
    (writeHeap s cid c).compCounter = s.compCounter := rfl

@[simp] theorem uidCounter_writeHeap (s : State) (cid : Nat) (c : Component) :
    (writeHeap s cid c).uidCounter = s.uidCounter := rfl

@[simp] theorem transform_writeHeap (s : State) (cid : Nat) (c : Component) :
    (writeHeap s cid c).transform = s.transform := rfl

@[simp] theorem hostComps_writeComps (s : State) (hid : Nat) (l : List Nat) (h : Nat) :
    (writeComps s hid l).hostComps h = if h = hid then some l else s.hostComps h := rfl

@[simp] theorem heap_writeComps (s : State) (hid : Nat) (l : List Nat) :
    (writeComps s hid l).heap = s.heap := rfl

@[simp] theorem events_writeComps (s : State) (hid : Nat) (l : List Nat) :
    (writeComps s hid l).events = s.events := rfl

@[simp] theorem registered_writeComps (s : State) (hid : Nat) (l : List Nat) :
    (writeComps s hid l).registered = s.registered := rfl

@[simp] theorem compCounter_writeComps (s : State) (hid : Nat) (l : List Nat) :
    (writeComps s hid l).compCounter = s.compCounter := rfl

@[simp] theorem uidCounter_writeComps (s : State) (hid : Nat) (l : List Nat) :
    (writeComps s hid l).uidCounter = s.uidCounter := rfl

@[simp] theorem transform_writeComps (s : State) (hid : Nat) (l : List Nat) :
    (writeComps s hid l).transform = s.transform := rfl

/-! ## Characterizations of addComponent -/

theorem addComponent_registered (s : State) (hid : Nat) (c : Option Nat) :
    (addComponent s hid c).state.registered = s.registered := by
  match c with
  | none => rfl
  | some cid =>
    unfold addComponent
    by_cases hb : (s.heap cid).hasOnAdded <;>
      simp only [hb, if_true, if_false, Bool.false_eq_true, ite_false, ite_true] <;>
      cases hcc : s.hostComps hid <;>
      simp [hcc] <;> split <;> simp <;> split <;> simp

theorem addComponent_compCounter (s : State) (hid : Nat) (c : Option Nat) :
    (addComponent s hid c).state.compCounter = s.compCounter := by
  match c with
  | none => rfl
  | some cid =>
    unfold addComponent
    by_cases hb : (s.heap cid).hasOnAdded <;>
      simp only [hb, if_true, if_false, Bool.false_eq_true, ite_false, ite_true] <;>
      cases hcc : s.hostComps hid <;>
      simp [hcc] <;> split <;> simp <;> split <;> simp

theorem addComponent_transform (s : State) (hid : Nat) (c : Option Nat) :
    (addComponent s hid c).state.transform = s.transform := by
  match c with
  | none => rfl
  | some cid =>
    unfold addComponent
    by_cases hb : (s.heap cid).hasOnAdded <;>
      simp only [hb, if_true, if_false, Bool.false_eq_true, ite_false, ite_true] <;>
      cases hcc : s.hostComps hid <;>
      simp [hcc] <;> split <;> simp <;> split <;> simp

theorem addComponent_heap_other (s : State) (hid cid k : Nat) (hk : k ≠ cid) :
    (addComponent s hid (some cid)).state.heap k = s.heap k := by
  unfold addComponent
  by_cases hb : (s.heap cid).hasOnAdded <;>
    simp only [hb, if_true, if_false, Bool.false_eq_true, ite_false, ite_true] <;>
    cases hcc : s.hostComps hid <;>
    simp [hcc, hk] <;> split <;> simp [hk] <;> split <;> simp [hk]

theorem addComponent_events (s : State) (hid cid : Nat) :
    (addComponent s hid (some cid)).state.events =
      s.events ++ (if (s.heap cid).hasOnAdded then [⟨.onAdded, hid, cid⟩] else []) := by
  unfold addComponent
  by_cases hb : (s.heap cid).hasOnAdded <;>
    simp only [hb, if_true, if_false, Bool.false_eq_true, ite_false, ite_true] <;>
    cases hcc : s.hostComps hid <;>
    simp [hcc] <;> split <;> simp <;> split <;> simp

theorem addComponent_dup_outcome (s : State) (hid cid : Nat) (l : List Nat)
    (hcomps : s.hostComps hid = some l) (hmem : cid ∈ l) :
    (addComponent s hid (some cid)).outcome = .threwDuplicate := by
  unfold addComponent
  by_cases hb : (s.heap cid).hasOnAdded <;>
    simp [hb, hcomps, hmem]

theorem addComponent_dup_hostComps (s : State) (hid cid : Nat) (l : List Nat)
    (hcomps : s.hostComps hid = some l) (hmem : cid ∈ l) :
    (addComponent s hid (some cid)).state.hostComps = s.hostComps := by
  unfold addComponent
  by_cases hb : (s.heap cid).hasOnAdded <;>
    simp [hb, hcomps, hmem]

theorem addComponent_dup_heap_self (s : State) (hid cid : Nat) (l : List Nat)
    (hcomps : s.hostComps hid = some l) (hmem : cid ∈ l) :
    (addComponent s hid (some cid)).state.heap cid =
      { s.heap cid with root := some hid } := by
  unfold addComponent
  by_cases hb : (s.heap cid).hasOnAdded <;>
    simp [hb, hcomps, hmem]

theorem addComponent_ok_outcome (s : State) (hid cid : Nat)
    (h : cid ∉ (s.hostComps hid).getD []) :
    (addComponent s hid (some cid)).outcome = .ok cid := by
  unfold addComponent
  by_cases hb : (s.heap cid).hasOnAdded <;>
    cases hcc : s.hostComps hid <;>
    rw [hcc] at h <;>
    simp_all

theorem addComponent_ok_hostComps (s : State) (hid cid : Nat)
    (h : cid ∉ (s.hostComps hid).getD []) (h2 : Nat) :
    (addComponent s hid (some cid)).state.hostComps h2 =
      if h2 = hid then some ((s.hostComps hid).getD [] ++ [cid]) else s.hostComps h2 := by
  unfold addComponent
  by_cases hb : (s.heap cid).hasOnAdded <;>
    cases hcc : s.hostComps hid <;>
    rw [hcc] at h <;>
    by_cases hu : (s.heap cid).uid.isSome <;>
    simp_all

theorem addComponent_ok_heap_self (s : State) (hid cid : Nat)
    (h : cid ∉ (s.hostComps hid).getD []) :
    (addComponent s hid (some cid)).state.heap cid =
      { s.heap cid with
          root := some hid,
          uid := (if (s.heap cid).uid.isSome then (s.heap cid).uid
                  else some s.uidCounter) } := by
  unfold addComponent
  by_cases hb : (s.heap cid).hasOnAdded <;>
    cases hcc : s.hostComps hid <;>
    rw [hcc] at h <;>
    by_cases hu : (s.heap cid).uid.isSome <;>
    simp_all

theorem addComponent_ok_uidCounter (s : State) (hid cid : Nat)
    (h : cid ∉ (s.hostComps hid).getD []) :
    (addComponent s hid (some cid)).state.uidCounter =
      if (s.heap cid).uid.isSome then s.uidCounter else s.uidCounter + 1 := by
  unfold addComponent
  by_cases hb : (s.heap cid).hasOnAdded <;>
    cases hcc : s.hostComps hid <;>
    rw [hcc] at h <;>
    by_cases hu : (s.heap cid).uid.isSome <;>
    simp_all

/-! ## Characterizations of removeComponent -/

theorem removeComponent_heap_self (s : State) (hid cid : Nat) :
    (removeComponent s hid (some cid)).state.heap cid =
      { s.heap cid with root := none } := by
  unfold removeComponent
  by_cases hb : (s.heap cid).hasOnRemoved <;>
    cases hcc : s.hostComps hid <;>
    simp_all <;> split <;> simp_all

theorem removeComponent_heap_other (s : State) (hid cid k : Nat) (hk : k ≠ cid) :
    (removeComponent s hid (some cid)).state.heap k = s.heap k := by
  unfold removeComponent
  by_cases hb : (s.heap cid).hasOnRemoved <;>
    cases hcc : s.hostComps hid <;>
    simp_all [hk] <;> split <;> simp_all [hk]

theorem removeComponent_events (s : State) (hid cid : Nat) :
    (removeComponent s hid (some cid)).state.events =
      s.events ++ (if (s.heap cid).hasOnRemoved then [⟨.onRemoved, hid, cid⟩] else [])
        ++ [⟨.unbind, hid, cid⟩] := by
  unfold removeComponent
  by_cases hb : (s.heap cid).hasOnRemoved <;>
    cases hcc : s.hostComps hid <;>
    simp_all <;> split <;> simp_all

theorem removeComponent_registered (s : State) (hid : Nat) (c : Option Nat) :
    (removeComponent s hid c).state.registered = s.registered := by
  match c with
  | none => rfl
  | some cid =>
    unfold removeComponent
    by_cases hb : (s.heap cid).hasOnRemoved <;>
      cases hcc : s.hostComps hid <;>
      simp_all <;> split <;> simp_all

theorem removeComponent_compCounter (s : State) (hid : Nat) (c : Option Nat) :
    (removeComponent s hid c).state.compCounter = s.compCounter := by
  match c with
  | none => rfl
  | some cid =>
    unfold removeComponent
    by_cases hb : (s.heap cid).hasOnRemoved <;>
      cases hcc : s.hostComps hid <;>
      simp_all <;> split <;> simp_all

theorem removeComponent_threw_undefined (s : State) (hid cid : Nat)
    (h : s.hostComps hid = none) :
    (removeComponent s hid (some cid)).threw = true := by
  unfold removeComponent
  by_cases hb : (s.heap cid).hasOnRemoved <;> simp_all

theorem removeComponent_threw_defined (s : State) (hid cid : Nat) (l : List Nat)
    (h : s.hostComps hid = some l) :
    (removeComponent s hid (some cid)).threw = false := by
  unfold removeComponent
  by_cases hb : (s.heap cid).hasOnRemoved <;>
    simp_all <;> split <;> simp_all

theorem removeComponent_hostComps_of_not_mem (s : State) (hid cid : Nat) (l : List Nat)
    (hcomps : s.hostComps hid = some l) (hmem : cid ∉ l) :
    (removeComponent s hid (some cid)).state.hostComps = s.hostComps := by
  have hfind : l.findIdx? (fun x => x == cid) = none := by
    rw [List.findIdx?_eq_none_iff]
    intro x hx
    simp only [beq_eq_false_iff_ne, ne_eq]
    intro hxe
    exact hmem (hxe ▸ hx)
  unfold removeComponent
  by_cases hb : (s.heap cid).hasOnRemoved <;> simp [hb, hcomps, hfind]

theorem removeComponent_hostComps_of_findIdx (s : State) (hid cid : Nat) (l : List Nat)
    (pos : Nat) (hcomps : s.hostComps hid = some l)
    (hfind : l.findIdx? (fun x => x == cid) = some pos) (h2 : Nat) :
    (removeComponent s hid (some cid)).state.hostComps h2 =
      if h2 = hid then some (l.eraseIdx pos) else s.hostComps h2 := by
  unfold removeComponent
  by_cases hb : (s.heap cid).hasOnRemoved <;> simp [hb, hcomps, hfind]

/-! ## Concrete states used by the closed witness theorems -/

/-- Sample serializable component exposing both lifecycle hooks. -/
def lightComp : Component :=
  { className := "Light", root := none, uid := none, hasSerialize := true,
    serData := { uid := none, payload := 7 }, hasOnAdded := true, hasOnRemoved := true }

/-- Base state: no host has a `_components` property yet, every heap cell
holds `lightComp`, every class name is registered. -/
def wState : State :=
  { hostComps := fun _ => none, heap := fun _ => lightComp, transform := fun _ => none,
    registered := fun _ => true, uidCounter := 0, compCounter := 100, events := [] }

/-- State after attaching component 1 to host 0. -/
def wState1 : State := (addComponent wState 0 (some 1)).state

/-! ## Claim theorems -/

/-- C3: adding a component already present in the host's collection
throws the duplicate error and leaves the collection unchanged (in
particular unchanged in length: the duplicate is not appended). -/
theorem C3_addComponent_duplicate_aborts (s : State) (hid cid : Nat) (l : List Nat)
    (hcomps : s.hostComps hid = some l) (hmem : cid ∈ l) :
    (addComponent s hid (some cid)).outcome = .threwDuplicate ∧
    (addComponent s hid (some cid)).state.hostComps hid = some l := by
  refine ⟨addComponent_dup_outcome s hid cid l hcomps hmem, ?_⟩
  rw [addComponent_dup_hostComps s hid cid l hcomps hmem, hcomps]

theorem C3_witness :
    wState1.hostComps 0 = some [1] ∧ (1 : Nat) ∈ [1] ∧
    ((addComponent wState1 0 (some 1)).outcome = .threwDuplicate ∧
     (addComponent wState1 0 (some 1)).state.hostComps 0 = some [1]) :=
  ⟨by decide, by decide,
   C3_addComponent_duplicate_aborts wState1 0 1 [1] (by decide) (by decide)⟩

/-- C4: adding a non-null component that is not yet attached sets its
host back-reference, appends it at the end of the collection, returns
it, and afterwards `getIndexOfComponent` is nonnegative and
`hasComponent` with its class is true. -/
theorem C4_addComponent_attaches (s : State) (hid cid : Nat)
    (h : cid ∉ (s.hostComps hid).getD []) :
    (addComponent s hid (some cid)).outcome = .ok cid ∧
    ((addComponent s hid (some cid)).state.heap cid).root = some hid ∧
    (addComponent s hid (some cid)).state.hostComps hid =
      some ((s.hostComps hid).getD [] ++ [cid]) ∧
    0 ≤ getIndexOfComponent (addComponent s hid (some cid)).state hid cid ∧
    hasComponent (addComponent s hid (some cid)).state hid (s.heap cid).className = true := by
  have hcomps : (addComponent s hid (some cid)).state.hostComps hid =
      some ((s.hostComps hid).getD [] ++ [cid]) := by
    rw [addComponent_ok_hostComps s hid cid h hid]; simp
  refine ⟨addComponent_ok_outcome s hid cid h, ?_, hcomps, ?_, ?_⟩
  · rw [addComponent_ok_heap_self s hid cid h]
  · have hfind : (((s.hostComps hid).getD [] ++ [cid]).findIdx?
        (fun x => x == cid)).isSome = true := by
      rw [List.findIdx?_isSome]
      simp
    obtain ⟨pos, hpos⟩ := Option.isSome_iff_exists.mp hfind
    simp [getIndexOfComponent, hcomps, hpos]
  · have hcn : ((addComponent s hid (some cid)).state.heap cid).className =
        (s.heap cid).className := by
      rw [addComponent_ok_heap_self s hid cid h]
    simp only [hasComponent, hcomps]
    rw [List.any_eq_true]
    exact ⟨cid, by simp, by simp [hcn]⟩

theorem C4_witness :
    (1 : Nat) ∉ (wState.hostComps 0).getD [] ∧
    ((addComponent wState 0 (some 1)).outcome = .ok 1 ∧
     ((addComponent wState 0 (some 1)).state.heap 1).root = some 0 ∧
     (addComponent wState 0 (some 1)).state.hostComps 0 =
       some ((wState.hostComps 0).getD [] ++ [1]) ∧
     0 ≤ getIndexOfComponent (addComponent wState 0 (some 1)).state 0 1 ∧
     hasComponent (addComponent wState 0 (some 1)).state 0 (wState.heap 1).className = true) :=
  ⟨by decide, C4_addComponent_attaches wState 0 1 (by decide)⟩

/-- C7: `getComponentByIndex` with an index outside the collection's
range (including any index when the collection was never created)
returns `none`; the embedding is a total function, so no error can be
raised. -/
theorem C7_getComponentByIndex_out_of_range (s : State) (hid : Nat) (index : Int)
    (h : ∀ l, s.hostComps hid = some l → index < 0 ∨ (l.length : Int) ≤ index) :
    getComponentByIndex s hid index = none := by
  unfold getComponentByIndex
  cases hcc : s.hostComps hid with
  | none => rfl
  | some l =>
    rcases h l hcc with hneg | hge
    · simp [hneg]
    · have hpos : ¬ index < 0 := by omega
      have hlen : l.length ≤ index.toNat := by omega
      simp [hpos, List.getElem?_eq_none hlen]

theorem C7_witness :
    (∀ l, wState.hostComps 0 = some l → (3 : Int) < 0 ∨ (l.length : Int) ≤ 3) ∧
    getComponentByIndex wState 0 3 = none :=
  ⟨fun l hl => by simp [wState] at hl,
   C7_getComponentByIndex_out_of_range wState 0 3 (fun l hl => by simp [wState] at hl)⟩

/-- C8: on a host whose `_components` property was never created,
`removeComponent` with a non-null argument and `removeAllComponents`
raise (dereference of the undefined collection), while the guarded
getters return their absent results without error. -/
theorem C8_uninitialized_host (s : State) (hid cid u : Nat) (cn : String)
    (h : s.hostComps hid = none) :
    (removeComponent s hid (some cid)).threw = true ∧
    (removeAllComponents s hid).threw = true ∧
    getIndexOfComponent s hid cid = -1 ∧
    getComponent s hid cn = none ∧
    hasComponent s hid cn = false ∧
    getComponentByUId s hid u = none := by
  refine ⟨removeComponent_threw_undefined s hid cid h, ?_, ?_, ?_, ?_, ?_⟩ <;>
    simp [removeAllComponents, getIndexOfComponent, getComponent, hasComponent,
      getComponentByUId, h]

theorem C8_witness :
    wState.hostComps 0 = none ∧
    ((removeComponent wState 0 (some 1)).threw = true ∧
     (removeAllComponents wState 0).threw = true ∧
     getIndexOfComponent wState 0 1 = -1 ∧
     getComponent wState 0 "Light" = none ∧
     hasComponent wState 0 "Light" = false ∧
     getComponentByUId wState 0 4 = none) :=
  ⟨by decide, C8_uninitialized_host wState 0 1 4 "Light" (by decide)⟩

/-- C9: removing a non-null component that is not in the (existing)
collection still clears its host back-reference, fires its
`onRemovedFromNode` hook when present and unbinds the host-component
event subscriptions, while the collection itself stays unchanged. -/
theorem C9_remove_absent_side_effects (s : State) (hid cid : Nat) (l : List Nat)
    (hcomps : s.hostComps hid = some l) (hmem : cid ∉ l) :
    (removeComponent s hid (some cid)).threw = false ∧
    ((removeComponent s hid (some cid)).state.heap cid).root = none ∧
    ((s.heap cid).hasOnRemoved = true →
      (⟨.onRemoved, hid, cid⟩ : Event) ∈ (removeComponent s hid (some cid)).state.events) ∧
    (⟨.unbind, hid, cid⟩ : Event) ∈ (removeComponent s hid (some cid)).state.events ∧
    (removeComponent s hid (some cid)).state.hostComps hid = some l := by
  refine ⟨removeComponent_threw_defined s hid cid l hcomps, ?_, ?_, ?_, ?_⟩
  · rw [removeComponent_heap_self]
  · intro hr; rw [removeComponent_events]; simp [hr]
  · rw [removeComponent_events]; simp
  · rw [removeComponent_hostComps_of_not_mem s hid cid l hcomps hmem, hcomps]

theorem C9_witness :
    wState1.hostComps 0 = some [1] ∧ (2 : Nat) ∉ [1] ∧
    ((removeComponent wState1 0 (some 2)).threw = false ∧
     ((removeComponent wState1 0 (some 2)).state.heap 2).root = none ∧
     ((wState1.heap 2).hasOnRemoved = true →
       (⟨.onRemoved, 0, 2⟩ : Event) ∈ (removeComponent wState1 0 (some 2)).state.events) ∧
     (⟨.unbind, 0, 2⟩ : Event) ∈ (removeComponent wState1 0 (some 2)).state.events ∧
     (removeComponent wState1 0 (some 2)).state.hostComps 0 = some [1]) :=
  ⟨by decide, by decide, C9_remove_absent_side_effects wState1 0 2 [1] (by decide) (by decide)⟩

/-- C10: the duplicate-add failure is not atomic: before the throw the
component's host back-reference has been (re)assigned and its
`onAddedToNode` hook invoked; only the collection and the component's
uid are unchanged. -/
theorem C10_duplicate_add_not_atomic (s : State) (hid cid : Nat) (l : List Nat)
    (hcomps : s.hostComps hid = some l) (hmem : cid ∈ l) :
    (addComponent s hid (some cid)).outcome = .threwDuplicate ∧
    ((addComponent s hid (some cid)).state.heap cid).root = some hid ∧
    ((s.heap cid).hasOnAdded = true →
      (⟨.onAdded, hid, cid⟩ : Event) ∈ (addComponent s hid (some cid)).state.events) ∧
    (addComponent s hid (some cid)).state.hostComps hid = some l ∧
    ((addComponent s hid (some cid)).state.heap cid).uid = (s.heap cid).uid := by
  refine ⟨addComponent_dup_outcome s hid cid l hcomps hmem, ?_, ?_, ?_, ?_⟩
  · rw [addComponent_dup_heap_self s hid cid l hcomps hmem]
  · intro ha; rw [addComponent_events]; simp [ha]
  · rw [addComponent_dup_hostComps s hid cid l hcomps hmem, hcomps]
  · rw [addComponent_dup_heap_self s hid cid l hcomps hmem]

theorem C10_witness :
    wState1.hostComps 0 = some [1] ∧ (1 : Nat) ∈ [1] ∧
    ((addComponent wState1 0 (some 1)).outcome = .threwDuplicate ∧
     ((addComponent wState1 0 (some 1)).state.heap 1).root = some 0 ∧
     ((wState1.heap 1).hasOnAdded = true →
       (⟨.onAdded, 0, 1⟩ : Event) ∈ (addComponent wState1 0 (some 1)).state.events) ∧
     (addComponent wState1 0 (some 1)).state.hostComps 0 = some [1] ∧
     ((addComponent wState1 0 (some 1)).state.heap 1).uid = (wState1.heap 1).uid) :=
  ⟨by decide, by decide, C10_duplicate_add_not_atomic wState1 0 1 [1] (by decide) (by decide)⟩

/-! ## List helpers relating indexOf-splice to erase -/

theorem findIdx?_beq_none_of_not_mem (l : List Nat) (cid : Nat) (h : cid ∉ l) :
    l.findIdx? (fun x => x == cid) = none := by
  rw [List.findIdx?_eq_none_iff]
  intro x hx
  simp only [beq_eq_false_iff_ne, ne_eq]
  rintro rfl
  exact h hx

theorem eraseIdx_findIdx?_eq_erase (l : List Nat) (cid : Nat) : ∀ pos,
    l.findIdx? (fun x => x == cid) = some pos → l.eraseIdx pos = l.erase cid := by
  induction l with
  | nil => intro pos h; simp at h
  | cons a t ih =>
    intro pos h
    rw [List.findIdx?_cons] at h
    by_cases ha : a == cid
    · rw [if_pos ha] at h
      obtain rfl : (0 : Nat) = pos := Option.some.inj h
      rw [List.erase_cons, if_pos ha]
      rfl
    · rw [if_neg ha, List.findIdx?_start_succ, Option.map_eq_some'] at h
      obtain ⟨q, hq, hpos⟩ := h
      subst hpos
      rw [List.erase_cons, if_neg ha, List.eraseIdx_cons_succ, ih q hq]

theorem not_mem_erase_of_count_le_one (l : List Nat) (cid : Nat)
    (h : l.count cid ≤ 1) : cid ∉ l.erase cid := by
  rw [← List.count_eq_zero, List.count_erase_self]
  omega

/-- C5: on a host with a non-empty collection, removing a non-null
component clears its host back-reference and makes its index `-1`; when
the component was not in the collection the list is unchanged, and in
every case the remaining list is a sublist of the old one (all other
components keep their relative positions).  The count hypothesis is the
collection's no-duplicate invariant, which `addComponent` enforces. -/
theorem C5_removeComponent_detaches (s : State) (hid cid : Nat) (l : List Nat)
    (hcomps : s.hostComps hid = some l) (hne : l ≠ [])
    (hcount : l.count cid ≤ 1) :
    (removeComponent s hid (some cid)).threw = false ∧
    ((removeComponent s hid (some cid)).state.heap cid).root = none ∧
    getIndexOfComponent (removeComponent s hid (some cid)).state hid cid = -1 ∧
    (cid ∉ l → (removeComponent s hid (some cid)).state.hostComps hid = some l) ∧
    ∃ l2, (removeComponent s hid (some cid)).state.hostComps hid = some l2 ∧
      l2.Sublist l := by
  refine ⟨removeComponent_threw_defined s hid cid l hcomps,
    by rw [removeComponent_heap_self], ?_, ?_, ?_⟩
  · cases hfind : l.findIdx? (fun x => x == cid) with
    | none =>
      have hnm : cid ∉ l := by
        intro hmem
        rw [List.findIdx?_eq_none_iff] at hfind
        have := hfind cid hmem
        simp at this
      have hsame := removeComponent_hostComps_of_not_mem s hid cid l hcomps hnm
      simp [getIndexOfComponent, hsame, hcomps, hfind]
    | some pos =>
      have herase := eraseIdx_findIdx?_eq_erase l cid pos hfind
      have hafter := removeComponent_hostComps_of_findIdx s hid cid l pos hcomps hfind hid
      rw [if_pos rfl] at hafter
      have hnm2 : cid ∉ l.eraseIdx pos := by
        rw [herase]
        exact not_mem_erase_of_count_le_one l cid hcount
      simp [getIndexOfComponent, hafter, findIdx?_beq_none_of_not_mem _ _ hnm2]
  · intro hnm
    rw [removeComponent_hostComps_of_not_mem s hid cid l hcomps hnm, hcomps]
  · cases hfind : l.findIdx? (fun x => x == cid) with
    | none =>
      have hnm : cid ∉ l := by
        intro hmem
        rw [List.findIdx?_eq_none_iff] at hfind
        have := hfind cid hmem
        simp at this
      exact ⟨l, by rw [removeComponent_hostComps_of_not_mem s hid cid l hcomps hnm, hcomps],
        List.Sublist.refl l⟩
    | some pos =>
      have hafter := removeComponent_hostComps_of_findIdx s hid cid l pos hcomps hfind hid
      rw [if_pos rfl] at hafter
      exact ⟨l.eraseIdx pos, hafter, List.eraseIdx_sublist l pos⟩

theorem C5_witness :
    wState1.hostComps 0 = some [1] ∧ ([1] : List Nat) ≠ [] ∧ ([1] : List Nat).count 1 ≤ 1 ∧
    ((removeComponent wState1 0 (some 1)).threw = false ∧
     ((removeComponent wState1 0 (some 1)).state.heap 1).root = none ∧
     getIndexOfComponent (removeComponent wState1 0 (some 1)).state 0 1 = -1 ∧
     ((1 : Nat) ∉ ([1] : List Nat) →
       (removeComponent wState1 0 (some 1)).state.hostComps 0 = some [1]) ∧
     ∃ l2, (removeComponent wState1 0 (some 1)).state.hostComps 0 = some l2 ∧
       l2.Sublist [1]) :=
  ⟨by decide, by decide, by decide,
   C5_removeComponent_detaches wState1 0 1 [1] (by decide) (by decide) (by decide)⟩

/-! ## Uid stability machinery (C6) -/

theorem addComponent_uid_mono (s : State) (hid : Nat) (c : Option Nat) (cid u : Nat)
    (h : (s.heap cid).uid = some u) :
    ((addComponent s hid c).state.heap cid).uid = some u := by
  match c with
  | none => exact h
  | some c2 =>
    by_cases hc : cid = c2
    · subst hc
      unfold addComponent
      by_cases hb : (s.heap cid).hasOnAdded <;>
        cases hcc : s.hostComps hid <;>
        simp_all <;> split <;> simp_all
    · rw [addComponent_heap_other s hid c2 cid hc, h]

theorem removeComponent_uid (s : State) (hid : Nat) (c : Option Nat) (cid : Nat) :
    ((removeComponent s hid c).state.heap cid).uid = (s.heap cid).uid := by
  match c with
  | none => rfl
  | some c2 =>
    by_cases hc : cid = c2
    · subst hc; rw [removeComponent_heap_self]
    · rw [removeComponent_heap_other s hid c2 cid hc]

theorem removeAllLoop_uid (hid cid : Nat) : ∀ (fuel : Nat) (s : State),
    ((removeAllLoop fuel s hid).heap cid).uid = (s.heap cid).uid := by
  intro fuel
  induction fuel with
  | zero => intro s; rfl
  | succ n ih =>
    intro s
    rw [removeAllLoop]
    cases hcc : s.hostComps hid with
    | none => rfl
    | some l =>
      cases l with
      | nil => rfl
      | cons c t => rw [ih, removeComponent_uid]

theorem removeAllLoop_compCounter (hid : Nat) : ∀ (fuel : Nat) (s : State),
    (removeAllLoop fuel s hid).compCounter = s.compCounter := by
  intro fuel
  induction fuel with
  | zero => intro s; rfl
  | succ n ih =>
    intro s
    rw [removeAllLoop]
    cases hcc : s.hostComps hid with
    | none => rfl
    | some l =>
      cases l with
      | nil => rfl
      | cons c t => rw [ih, removeComponent_compCounter]

theorem removeAllComponents_uid (s : State) (hid cid : Nat) :
    ((removeAllComponents s hid).state.heap cid).uid = (s.heap cid).uid := by
  unfold removeAllComponents
  cases hcc : s.hostComps hid <;> simp [removeAllLoop_uid]

theorem removeAllComponents_compCounter (s : State) (hid : Nat) :
    (removeAllComponents s hid).state.compCounter = s.compCounter := by
  unfold removeAllComponents
  cases hcc : s.hostComps hid <;> simp [removeAllLoop_compCounter]

theorem configLoop_uid_mono (hid cid u : Nat) :
    ∀ (entries : List (String × SerData)) (s : State) (i : Nat),
    cid < s.compCounter → (s.heap cid).uid = some u →
    cid < (configLoop s hid entries i).compCounter ∧
    ((configLoop s hid entries i).heap cid).uid = some u := by
  intro entries
  induction entries with
  | nil => intro s i h1 h2; exact ⟨h1, h2⟩
  | cons e rest ih =>
    intro s i h1 h2
    obtain ⟨cn, data⟩ := e
    rw [configLoop]
    split
    · exact ih _ _ h1 h2
    · split
      · exact ih _ _ h1 h2
      · have hne : cid ≠ s.compCounter := Nat.ne_of_lt h1
        refine ih _ _ ?_ ?_
        · rw [addComponent_compCounter]
          show cid < s.compCounter + 1
          omega
        · apply addComponent_uid_mono
          show ((writeHeap s s.compCounter (mkComponentFromData cn data)).heap cid).uid = some u
          rw [heap_writeHeap, if_neg hne]
          exact h2

theorem configureComponents_uid_mono (s : State) (hid : Nat) (info : SerTarget)
    (cid u : Nat) (h1 : cid < s.compCounter) (h2 : (s.heap cid).uid = some u) :
    cid < (configureComponents s hid info).compCounter ∧
    ((configureComponents s hid info).heap cid).uid = some u := by
  unfold configureComponents
  cases info.components with
  | none => exact ⟨h1, h2⟩
  | some entries => exact configLoop_uid_mono hid cid u entries s 0 h1 h2

theorem step_uid_mono (s : State) (op : Op) (cid u : Nat)
    (h1 : cid < s.compCounter) (h2 : (s.heap cid).uid = some u) :
    cid < (step s op).compCounter ∧ ((step s op).heap cid).uid = some u := by
  cases op with
  | add h c =>
    refine ⟨?_, addComponent_uid_mono s h c cid u h2⟩
    show cid < (addComponent s h c).state.compCounter
    rw [addComponent_compCounter]
    exact h1
  | remove h c =>
    refine ⟨?_, ?_⟩
    · show cid < (removeComponent s h c).state.compCounter
      rw [removeComponent_compCounter]
      exact h1
    · show ((removeComponent s h c).state.heap cid).uid = some u
      rw [removeComponent_uid]
      exact h2
  | removeAll h =>
    refine ⟨?_, ?_⟩
    · show cid < (removeAllComponents s h).state.compCounter
      rw [removeAllComponents_compCounter]
      exact h1
    · show ((removeAllComponents s h).state.heap cid).uid = some u
      rw [removeAllComponents_uid]
      exact h2
  | configure h i => exact configureComponents_uid_mono s h i cid u h1 h2

/-- C6: a component's uid, once present, is never changed or
regenerated by any later sequence of attach, detach, detach-all or
configure operations on any hosts.  The bound on `compCounter` is the
allocation well-formedness of the heap (live components live below the
allocation counter, as in a real JS heap where `new` cannot return an
existing object). -/
theorem C6_uid_immutable (s : State) (ops : List Op) (cid u : Nat)
    (hlt : cid < s.compCounter) (h : (s.heap cid).uid = some u) :
    ((run s ops).heap cid).uid = some u := by
  have main : ∀ (ops2 : List Op) (s2 : State), cid < s2.compCounter →
      (s2.heap cid).uid = some u →
      cid < (run s2 ops2).compCounter ∧ ((run s2 ops2).heap cid).uid = some u := by
    intro ops2
    induction ops2 with
    | nil => exact fun s2 h1 h2 => ⟨h1, h2⟩
    | cons op rest ih =>
      intro s2 h1 h2
      have hstep := step_uid_mono s2 op cid u h1 h2
      exact ih (step s2 op) hstep.1 hstep.2
  exact (main ops s hlt h).2

theorem C6_witness :
    (1 : Nat) < wState1.compCounter ∧ (wState1.heap 1).uid = some 0 ∧
    ((run wState1 [.remove 0 (some 1), .add 1 (some 1), .remove 1 (some 1),
        .add 0 (some 1)]).heap 1).uid = some 0 :=
  ⟨by decide, by decide,
   C6_uid_immutable wState1
     [.remove 0 (some 1), .add 1 (some 1), .remove 1 (some 1), .add 0 (some 1)]
     1 0 (by decide) (by decide)⟩

/-! ## Serialization shape (C2, C1) -/

theorem filterMap_ite_eq_map_filter {α β : Type} (l : List α) (p : α → Bool) (f : α → β) :
    l.filterMap (fun x => if p x then some (f x) else none) = (l.filter p).map f := by
  induction l with
  | nil => rfl
  | cons a t ih => by_cases hp : p a <;> simp [List.filter_cons, hp, ih]

/-- With an existing collection, `serializeComponents` assigns
`o.components` a fresh list holding one pair per serializable component,
in attachment order, whatever the target held before. -/
theorem serializeComponents_components (s : State) (hid : Nat) (l : List Nat)
    (o : SerTarget) (hcomps : s.hostComps hid = some l) :
    (serializeComponents s hid o).components =
      some ((l.filter (fun cid => (s.heap cid).hasSerialize)).map
        (fun cid => ((s.heap cid).className, serializeOne (s.heap cid)))) := by
  unfold serializeComponents
  rw [hcomps]
  simp only [filterMap_ite_eq_map_filter]

/-- When every attached component is serializable, the produced list has
one entry per component. -/
theorem serializeComponents_all (s : State) (hid : Nat) (l : List Nat)
    (hcomps : s.hostComps hid = some l)
    (hser : ∀ cid ∈ l, (s.heap cid).hasSerialize = true) :
    (serializeComponents s hid ⟨none⟩).components =
      some (l.map (fun cid => ((s.heap cid).className, serializeOne (s.heap cid)))) := by
  rw [serializeComponents_components s hid l ⟨none⟩ hcomps, List.filter_eq_self.mpr hser]

theorem serializeOne_uid_isSome (c : Component) (h : c.uid.isSome = true) :
    (serializeOne c).uid.isSome = true := by
  unfold serializeOne
  by_cases ho : c.serData.uid.isNone <;> simp [ho, h]
  cases hcc : c.serData.uid with
  | none => rw [hcc] at ho; simp at ho
  | some v => simp

theorem serializeOne_of_serData_uid_isSome (c : Component)
    (hd : c.serData.uid.isSome = true) :
    serializeOne c = c.serData := by
  unfold serializeOne
  have hno : c.serData.uid.isNone = false := by
    cases hcc : c.serData.uid
    · rw [hcc] at hd; simp at hd
    · simp
  simp [hno]

/-- Host 0 holding the single serializable component 0. -/
def cState : State :=
  { hostComps := fun h => if h = 0 then some [0] else none, heap := fun _ => lightComp,
    transform := fun _ => none, registered := fun _ => true, uidCounter := 0,
    compCounter := 100, events := [] }

/-- C2 counterexample: with an entry already present in
`target.components`, `serializeComponents` discards it; the result is
only the freshly serialized pair, not the old entry followed by the new
one as the claim states. -/
theorem C2_counterexample :
    (serializeComponents cState 0 ⟨some [("Old", ⟨none, 1⟩)]⟩).components =
      some [("Light", ⟨none, 7⟩)] ∧
    (serializeComponents cState 0 ⟨some [("Old", ⟨none, 1⟩)]⟩).components ≠
      some [("Old", ⟨none, 1⟩), ("Light", ⟨none, 7⟩)] := by
  decide

/-- C2 (amended): for a host whose collection exists,
`serializeComponents` REPLACES `target.components` with a fresh list of
one `[class_name, data]` pair per attached component exposing
`serialize` (others skipped), in attachment order; entries previously in
the target are discarded, and when the host's collection was never
created the target is left untouched. -/
theorem C2_serializeComponents_replaces (s : State) (hid : Nat) (l : List Nat)
    (o : SerTarget) (hcomps : s.hostComps hid = some l) :
    (serializeComponents s hid o).components =
      some ((l.filter (fun cid => (s.heap cid).hasSerialize)).map
        (fun cid => ((s.heap cid).className, serializeOne (s.heap cid)))) ∧
    (∀ s2 hid2, s2.hostComps hid2 = none → serializeComponents s2 hid2 o = o) := by
  refine ⟨serializeComponents_components s hid l o hcomps, ?_⟩
  intro s2 hid2 h2
  unfold serializeComponents
  rw [h2]

theorem C2_witness :
    cState.hostComps 0 = some [0] ∧
    ((serializeComponents cState 0 ⟨some [("Old", ⟨none, 1⟩)]⟩).components =
      some (([0].filter (fun cid => (cState.heap cid).hasSerialize)).map
        (fun cid => ((cState.heap cid).className, serializeOne (cState.heap cid)))) ∧
     (∀ s2 hid2, s2.hostComps hid2 = none →
       serializeComponents s2 hid2 ⟨some [("Old", ⟨none, 1⟩)]⟩ = ⟨some [("Old", ⟨none, 1⟩)]⟩)) :=
  ⟨by decide, C2_serializeComponents_replaces cState 0 [0] ⟨some [("Old", ⟨none, 1⟩)]⟩ (by decide)⟩

/-! ## Round-trip of serializeComponents and configureComponents (C1) -/

theorem configLoop_roundtrip (hid : Nat) :
    ∀ (entries : List (String × SerData)) (s : State) (i : Nat),
    (∀ cid ∈ (s.hostComps hid).getD [], cid < s.compCounter) →
    (∀ e ∈ entries, s.registered e.1 = true) →
    (∀ e ∈ entries, e.2.uid.isSome = true) →
    (i = 0 → ∀ e, entries.head? = some e → e.1 ≠ "Transform") →
    componentSnapshot (configLoop s hid entries i) hid =
      componentSnapshot s hid ++ entries := by
  intro entries
  induction entries with
  | nil =>
    intro s i hacc hreg huid htr
    simp [configLoop]
  | cons e rest ih =>
    intro s i hacc hreg huid htr
    obtain ⟨cn, data⟩ := e
    have hcond : (cn == "Transform" && i == 0) = false := by
      by_cases hi : i = 0
      · have hne := htr hi (cn, data) rfl
        have hb : (cn == "Transform") = false := by simp [hne]
        simp [hb]
      · have hb : (i == 0) = false := by simp [hi]
        simp [hb]
    have hregcn : s.registered cn = true := hreg (cn, data) (List.mem_cons_self _ _)
    rw [configLoop]
    rw [if_neg (by simp [hcond]), if_neg (by simp [hregcn])]
    have hnotmem : s.compCounter ∉
        (({ writeHeap s s.compCounter (mkComponentFromData cn data) with
            compCounter := s.compCounter + 1 } : State).hostComps hid).getD [] := by
      intro hmem
      exact absurd (hacc s.compCounter hmem) (lt_irrefl _)
    have hTcomps := addComponent_ok_hostComps
      { writeHeap s s.compCounter (mkComponentFromData cn data) with
        compCounter := s.compCounter + 1 } hid s.compCounter hnotmem hid
    rw [if_pos rfl] at hTcomps
    have hs1heap : ({ writeHeap s s.compCounter (mkComponentFromData cn data) with
        compCounter := s.compCounter + 1 } : State).heap s.compCounter =
        mkComponentFromData cn data := by
      show (writeHeap s s.compCounter (mkComponentFromData cn data)).heap s.compCounter = _
      rw [heap_writeHeap, if_pos rfl]
    have hTheap := addComponent_ok_heap_self
      { writeHeap s s.compCounter (mkComponentFromData cn data) with
        compCounter := s.compCounter + 1 } hid s.compCounter hnotmem
    rw [hs1heap] at hTheap
    have hTheap2 : (addComponent
        { writeHeap s s.compCounter (mkComponentFromData cn data) with
          compCounter := s.compCounter + 1 } hid (some s.compCounter)).state.heap
          s.compCounter =
        { mkComponentFromData cn data with root := some hid, uid := some s.uidCounter } := by
      rw [hTheap]
      simp [mkComponentFromData]
    have hTheap_other : ∀ k, k ≠ s.compCounter →
        (addComponent
          { writeHeap s s.compCounter (mkComponentFromData cn data) with
            compCounter := s.compCounter + 1 } hid (some s.compCounter)).state.heap k =
          s.heap k := by
      intro k hk
      rw [addComponent_heap_other _ hid s.compCounter k hk]
      show (writeHeap s s.compCounter (mkComponentFromData cn data)).heap k = s.heap k
      rw [heap_writeHeap, if_neg hk]
    rw [ih _ (i + 1) ?hacc2 ?hreg2 ?huid2 ?htr2]
    case hacc2 =>
      intro k hk
      rw [hTcomps] at hk
      rw [addComponent_compCounter]
      show k < s.compCounter + 1
      simp only [Option.getD_some] at hk
      rcases List.mem_append.mp hk with hk1 | hk2
      · exact Nat.lt_succ_of_lt (hacc k hk1)
      · simp at hk2
        omega
    case hreg2 =>
      intro e2 he2
      rw [addComponent_registered]
      exact hreg e2 (List.mem_cons_of_mem _ he2)
    case huid2 =>
      exact fun e2 he2 => huid e2 (List.mem_cons_of_mem _ he2)
    case htr2 =>
      exact fun h0 => absurd h0 (Nat.succ_ne_zero i)
    have hsnapT : componentSnapshot (addComponent
        { writeHeap s s.compCounter (mkComponentFromData cn data) with
          compCounter := s.compCounter + 1 } hid (some s.compCounter)).state hid =
        componentSnapshot s hid ++ [(cn, data)] := by
      unfold componentSnapshot
      rw [hTcomps]
      simp only [Option.getD_some, List.map_append, List.map_cons, List.map_nil]
      congr 1
      · apply List.map_congr_left
        intro k hk
        have hkne : k ≠ s.compCounter := Nat.ne_of_lt (hacc k hk)
        rw [hTheap_other k hkne]
      · have hd : data.uid.isSome = true := huid (cn, data) (List.mem_cons_self _ _)
        rw [hTheap2]
        rw [serializeOne_of_serData_uid_isSome _ (by simpa [mkComponentFromData] using hd)]
        simp [mkComponentFromData]
    rw [hsnapT, List.append_assoc]
    rfl

/-- Serializable component whose class name is the special-cased
`"Transform"`. -/
def transformComp : Component :=
  { className := "Transform", root := some 0, uid := some 5, hasSerialize := true,
    serData := { uid := some 5, payload := 9 }, hasOnAdded := false, hasOnRemoved := false }

/-- Host 0 holding a single attached Transform component; host 1 fresh. -/
def tState : State :=
  { hostComps := fun h => if h = 0 then some [0] else none, heap := fun _ => transformComp,
    transform := fun _ => none, registered := fun _ => true, uidCounter := 0,
    compCounter := 100, events := [] }

/-- C1 counterexample: host 0's only component is serializable (and has
a uid, a registered class, a live heap address) and host 1 is a fresh
empty host, yet serializing host 0 and configuring host 1 with the
result does NOT reproduce the collection: the pair
`["Transform", data]` sits at position 0, so `configureComponents`
routes it to the built-in `this.transform` and never attaches it, and
host 1's collection stays empty. -/
theorem C1_counterexample :
    (∀ cid ∈ [(0 : Nat)], (tState.heap cid).hasSerialize = true) ∧
    tState.hostComps 0 = some [0] ∧ tState.hostComps 1 = none ∧
    componentSnapshot
      (configureComponents tState 1 (serializeComponents tState 0 ⟨none⟩)) 1 ≠
      componentSnapshot tState 0 := by
  decide

/-- C1 (amended): serializing a host whose attached components all
expose `serialize`, all carry a uid and all have registered class names,
and whose FIRST component is not of the special-cased class
`"Transform"`, then configuring a fresh empty host with the result,
reproduces a collection with the same class names and serialized data in
the same attachment order. -/
theorem C1_roundtrip_amended (s : State) (hid hid2 : Nat) (l : List Nat)
    (hcomps : s.hostComps hid = some l)
    (hser : ∀ cid ∈ l, (s.heap cid).hasSerialize = true)
    (huid : ∀ cid ∈ l, (s.heap cid).uid.isSome = true)
    (hreg : ∀ cid ∈ l, s.registered (s.heap cid).className = true)
    (htr : l.head?.all (fun cid => !((s.heap cid).className == "Transform")) = true)
    (hfresh : s.hostComps hid2 = none) :
    componentSnapshot (configureComponents s hid2 (serializeComponents s hid ⟨none⟩)) hid2 =
      componentSnapshot s hid := by
  have hserl := serializeComponents_all s hid l hcomps hser
  have goal_eq : configureComponents s hid2 (serializeComponents s hid ⟨none⟩) =
      configLoop s hid2
        (l.map fun cid => ((s.heap cid).className, serializeOne (s.heap cid))) 0 := by
    unfold configureComponents
    rw [hserl]
  rw [goal_eq]
  rw [configLoop_roundtrip hid2 _ s 0 ?h1 ?h2 ?h3 ?h4]
  case h1 =>
    rw [hfresh]
    intro k hk
    simp at hk
  case h2 =>
    intro e he
    obtain ⟨cid, hcid, rfl⟩ := List.mem_map.mp he
    exact hreg cid hcid
  case h3 =>
    intro e he
    obtain ⟨cid, hcid, rfl⟩ := List.mem_map.mp he
    exact serializeOne_uid_isSome _ (huid cid hcid)
  case h4 =>
    intro h0 e hhd
    rw [List.head?_map] at hhd
    obtain ⟨cid, hcid, rfl⟩ := Option.map_eq_some'.mp hhd
    rw [hcid] at htr
    have : (!((s.heap cid).className == "Transform")) = true := htr
    simpa using this
  unfold componentSnapshot
  rw [hfresh, hcomps]
  simp

/-- Round-trip witness host: host 0 holds two serializable components
with uids, neither of class Transform; host 1 is fresh. -/
def rState : State :=
  { hostComps := fun h => if h = 0 then some [0, 1] else none,
    heap := fun k =>
      { className := if k = 0 then "Light" else "Camera", root := some 0,
        uid := some k, hasSerialize := true,
        serData := { uid := some k, payload := k + 20 },
        hasOnAdded := false, hasOnRemoved := false },
    transform := fun _ => none, registered := fun _ => true, uidCounter := 10,
    compCounter := 100, events := [] }

theorem C1_witness :
    rState.hostComps 0 = some [0, 1] ∧
    (∀ cid ∈ [(0 : Nat), 1], (rState.heap cid).hasSerialize = true) ∧
    (∀ cid ∈ [(0 : Nat), 1], (rState.heap cid).uid.isSome = true) ∧
    (∀ cid ∈ [(0 : Nat), 1], rState.registered (rState.heap cid).className = true) ∧
    ([(0 : Nat), 1].head?.all
      (fun cid => !((rState.heap cid).className == "Transform")) = true) ∧
    rState.hostComps 1 = none ∧
    componentSnapshot
      (configureComponents rState 1 (serializeComponents rState 0 ⟨none⟩)) 1 =
      componentSnapshot rState 0 :=
  ⟨by decide, by decide, by decide, by decide, by decide, by decide,
   C1_roundtrip_amended rState 0 1 [0, 1] (by decide) (by decide) (by decide) (by decide)
     (by decide) (by decide)⟩
